import Mathlib

/-!
# Verification of the panda3d egg type-registry fragment (eggCurve.h)

Shallow embedding of `src/panda/src/egg/eggCurve.h` and of the type
registry it uses.  The registry itself (`register_type`,
`is_derived_from`, `get_name`, `get_parents`), the inline accessors of
`eggCurve.I` and the implementations of `string_curve_type` and of
`operator <<` are not part of the visible source; those definitions are
modelled from the specification and marked as such.
-/

/-- A `TypeHandle` is an opaque comparable identifier for a registered
type; its only attribute visible here is the numeric id assigned at
registration. -/
structure TypeHandle where
  id : Nat
deriving DecidableEq, Repr

/-- One entry of the registry: the assigned numeric id, the display
name, and the ids of the declared parent handles. -/
structure TypeEntry where
  id : Nat
  name : String
  parents : List Nat
deriving DecidableEq, Repr

/-- Modelled from the spec: the process-wide registry state, holding the
name-to-handle table and the handle-to-parent-set table, with
monotonically assigned ids. -/
structure TypeRegistry where
  entries : List TypeEntry
  nextId : Nat
deriving DecidableEq, Repr

/-- The empty registry at process start. -/
def TypeRegistry.empty : TypeRegistry := ⟨[], 0⟩

/-- Name lookup inside the registry. -/
def findEntryByName (reg : TypeRegistry) (name : String) : Option TypeEntry :=
  reg.entries.find? (fun e => e.name == name)

/-- Id lookup inside the registry. -/
def findEntryById (reg : TypeRegistry) (i : Nat) : Option TypeEntry :=
  reg.entries.find? (fun e => e.id == i)

/-- Modelled from the spec: `register_type(name, parent_handles)`
registers a new type under `name` with the given parents; if `name` is
already registered it returns the existing handle without mutating the
parent set.  Ids are assigned monotonically. -/
def register_type (reg : TypeRegistry) (name : String) (parents : List TypeHandle) :
    TypeRegistry × TypeHandle :=
  match findEntryByName reg name with
  | some e => (reg, ⟨e.id⟩)
  | none =>
    (⟨reg.entries ++ [⟨reg.nextId, name, parents.map TypeHandle.id⟩], reg.nextId + 1⟩,
     ⟨reg.nextId⟩)

/-- The registry error taxonomy: `UnknownType` signals a query about a
handle never registered. -/
inductive RegistryError
  | UnknownType
deriving DecidableEq, Repr

/-- Modelled from the spec: `get_name(h)` is a pure lookup failing with
`UnknownType` when `h` was never registered. -/
def get_name (reg : TypeRegistry) (h : TypeHandle) : Except RegistryError String :=
  match findEntryById reg h.id with
  | some e => Except.ok e.name
  | none => Except.error RegistryError.UnknownType

/-- Modelled from the spec: `get_parents(h)` is a pure lookup failing
with `UnknownType` when `h` was never registered. -/
def get_parents (reg : TypeRegistry) (h : TypeHandle) :
    Except RegistryError (List TypeHandle) :=
  match findEntryById reg h.id with
  | some e => Except.ok (e.parents.map TypeHandle.mk)
  | none => Except.error RegistryError.UnknownType

/-- Fuel-bounded traversal of the parent links, the computational core
of `is_derived_from`: true when `h = anc` or some chain of parent links
of length at most `fuel` leads from `h` to `anc`. -/
def isDerivedFromFuel (reg : TypeRegistry) : Nat → Nat → Nat → Bool
  | 0, h, anc => h == anc
  | fuel + 1, h, anc =>
    h == anc ||
      match findEntryById reg h with
      | some e => e.parents.any (fun p => isDerivedFromFuel reg fuel p anc)
      | none => false

/-- Modelled from the spec: `is_derived_from(h, ancestor)` is true iff
`h == ancestor` or `ancestor` is reachable by following parent links
from `h`; the traversal is bounded by the number of registered types,
which suffices on the registry invariant. -/
def is_derived_from (reg : TypeRegistry) (h anc : TypeHandle) : Bool :=
  isDerivedFromFuel reg reg.entries.length h.id anc.id

/-- Spec-side reachability: `Reaches reg h anc` holds when `anc` can be
reached from `h` by following parent links (zero or more steps).  This
is the specification's wording of the `is_derived_from` contract. -/
inductive Reaches (reg : TypeRegistry) : Nat → Nat → Prop
  | refl (h : Nat) : Reaches reg h h
  | step {h p anc : Nat} (e : TypeEntry) (he : e ∈ reg.entries) (hid : e.id = h)
      (hp : p ∈ e.parents) (hr : Reaches reg p anc) : Reaches reg h anc

/-- One parent link of the registry graph, from a child id to one of its
recorded parent ids. -/
inductive ParentStep (reg : TypeRegistry) : Nat → Nat → Prop
  | mk {h p : Nat} (e : TypeEntry) (he : e ∈ reg.entries) (hid : e.id = h)
      (hp : p ∈ e.parents) : ParentStep reg h p

/-- The registry invariant maintained by the registration discipline:
`nextId` counts the entries, the entry stored at position `i` carries id
`i` (ids are assigned monotonically), and every recorded parent id is
strictly smaller than its child's id (parents register before
children). -/
def WF (reg : TypeRegistry) : Prop :=
  reg.nextId = reg.entries.length ∧
  ∀ i, ∀ hi : i < reg.entries.length,
    (reg.entries[i]).id = i ∧ ∀ p ∈ (reg.entries[i]).parents, p < i

instance (reg : TypeRegistry) : Decidable (WF reg) := by
  unfold WF; infer_instance

/-- The curve-kind enumeration of `eggCurve.h`:
`enum CurveType { CT_none, CT_xyz, CT_hpr, CT_t }`. -/
inductive CurveType
  | CT_none
  | CT_xyz
  | CT_hpr
  | CT_t
deriving DecidableEq, Repr

/-- The `EggCurve` node: the name inherited from the node base class and
the two private fields `int _subdiv; CurveType _type;` of
`eggCurve.h`. -/
structure EggCurve where
  name : String
  _subdiv : Int
  _type : CurveType
deriving DecidableEq, Repr

/-- Modelled from the spec: the inline accessor `set_subdiv` of
`eggCurve.I` stores the subdivision count verbatim, with no range
validation. -/
def EggCurve.set_subdiv (c : EggCurve) (subdiv : Int) : EggCurve :=
  { c with _subdiv := subdiv }

/-- Modelled from the spec: the inline accessor `get_subdiv` of
`eggCurve.I` returns the stored subdivision count. -/
def EggCurve.get_subdiv (c : EggCurve) : Int :=
  c._subdiv

/-- Modelled from the spec: the inline accessor `set_curve_type` of
`eggCurve.I` stores the curve kind. -/
def EggCurve.set_curve_type (c : EggCurve) (t : CurveType) : EggCurve :=
  { c with _type := t }

/-- Modelled from the spec: the inline accessor `get_curve_type` of
`eggCurve.I` returns the stored curve kind. -/
def EggCurve.get_curve_type (c : EggCurve) : CurveType :=
  c._type

/-- The four canonical curve-kind keywords, one per enumerator, in
enumerator order. -/
def curveTypeKeywords : List String := ["none", "xyz", "hpr", "t"]

/-- Modelled from the spec: `string_curve_type` (declared in
`eggCurve.h`, implemented outside the visible source) maps a token to a
`CurveType` by exact, case-sensitive match against the four keywords,
and maps any unrecognized token to `CT_none`. -/
def EggCurve.string_curve_type (s : String) : CurveType :=
  if s = "none" then CurveType.CT_none
  else if s = "xyz" then CurveType.CT_xyz
  else if s = "hpr" then CurveType.CT_hpr
  else if s = "t" then CurveType.CT_t
  else CurveType.CT_none

/-- Modelled from the spec: the stream operator
`operator << (ostream &, EggCurve::CurveType)` renders each enumerator
back to its canonical keyword; `CT_none` renders to the unspecified
token. -/
def curveTypeOut : CurveType → String
  | CurveType.CT_none => "none"
  | CurveType.CT_xyz => "xyz"
  | CurveType.CT_hpr => "hpr"
  | CurveType.CT_t => "t"

/-- Modelled from the spec: the base class `EggPrimitive` (its header is
outside the visible source); only its participation in the type registry
matters here. -/
structure EggPrimitive where
  name : String
deriving DecidableEq, Repr

/-- Modelled from the spec: `EggPrimitive::get_class_type()` returns the
handle registered for the name `"EggPrimitive"`, when present. -/
def EggPrimitive.get_class_type (reg : TypeRegistry) : Option TypeHandle :=
  (findEntryByName reg "EggPrimitive").map (fun e => ⟨e.id⟩)

/-- Modelled from the spec: `EggPrimitive::init_type()` registers the
base class (treated as the root of the visible fragment, per the spec
scenario). -/
def EggPrimitive.init_type (reg : TypeRegistry) : TypeRegistry :=
  (register_type reg "EggPrimitive" []).1

/-- From `eggCurve.h`: `EggCurve::get_class_type()` returns the handle
stored for this class, i.e. the one registered for `"EggCurve"`. -/
def EggCurve.get_class_type (reg : TypeRegistry) : Option TypeHandle :=
  (findEntryByName reg "EggCurve").map (fun e => ⟨e.id⟩)

/-- From `eggCurve.h`: `EggCurve::init_type()` first calls
`EggPrimitive::init_type()`, then registers `"EggCurve"` with
`EggPrimitive::get_class_type()` as its sole parent. -/
def EggCurve.init_type (reg : TypeRegistry) : TypeRegistry :=
  let reg1 := EggPrimitive.init_type reg
  (register_type reg1 "EggCurve" (EggPrimitive.get_class_type reg1).toList).1

/-- From `eggCurve.h`: `force_init_type()` calls `init_type()` and then
returns `get_class_type()`. -/
def EggCurve.force_init_type (reg : TypeRegistry) : TypeRegistry × Option TypeHandle :=
  (EggCurve.init_type reg, EggCurve.get_class_type (EggCurve.init_type reg))

/-- A base-typed reference to a node: the value is one of the concrete
node classes, and virtual dispatch selects the override of the actual
class. -/
inductive EggNodeRef
  | primitive : EggPrimitive → EggNodeRef
  | curve : EggCurve → EggNodeRef

/-- Virtual dispatch of `get_type()`: each concrete class overrides it
to return its own `get_class_type()` (`eggCurve.h` lines 53-55 for
`EggCurve`), so the result depends only on the actual class of the
referenced node, not on the static type of the reference. -/
def EggNodeRef.get_type (n : EggNodeRef) (reg : TypeRegistry) : Option TypeHandle :=
  match n with
  | EggNodeRef.primitive _ => EggPrimitive.get_class_type reg
  | EggNodeRef.curve _ => EggCurve.get_class_type reg

/-! ## Registry lemmas -/

/-- When the name is already present, `register_type` returns the
registry unchanged together with the existing handle. -/
lemma register_type_found (reg : TypeRegistry) (n : String) (ps : List TypeHandle)
    (e : TypeEntry) (h : findEntryByName reg n = some e) :
    register_type reg n ps = (reg, ⟨e.id⟩) := by
  unfold register_type
  rw [h]

/-- After `register_type`, the name is present and bound to the returned
handle. -/
lemma findEntryByName_register (reg : TypeRegistry) (n : String) (ps : List TypeHandle) :
    ∃ e, findEntryByName (register_type reg n ps).1 n = some e ∧
      e.id = ((register_type reg n ps).2).id ∧ e.name = n := by
  unfold register_type
  cases hfind : findEntryByName reg n with
  | some e =>
    refine ⟨e, hfind, rfl, ?_⟩
    have hp := List.find?_some hfind
    simpa using hp
  | none =>
    refine ⟨⟨reg.nextId, n, ps.map TypeHandle.id⟩, ?_, rfl, rfl⟩
    unfold findEntryByName at hfind ⊢
    simp [List.find?_append, hfind]

/-- An existing name binding survives any further registration. -/
lemma findEntryByName_mono (reg : TypeRegistry) (n n' : String) (ps : List TypeHandle)
    (e : TypeEntry) (h : findEntryByName reg n = some e) :
    findEntryByName (register_type reg n' ps).1 n = some e := by
  unfold register_type
  cases hfind : findEntryByName reg n' with
  | some _ => exact h
  | none =>
    unfold findEntryByName at h ⊢
    simp [List.find?_append, h]

/-! ## Claim theorems (first batch) -/

/-- C1: registration is idempotent — a second `register_type` with the
same name returns the same handle and leaves the registry (hence the
recorded parent set) unchanged, and repeated `EggCurve::init_type`
leaves `"EggCurve"` bound to one and the same handle. -/
theorem registration_idempotent :
    (∀ (reg : TypeRegistry) (n : String) (ps ps' : List TypeHandle),
      register_type (register_type reg n ps).1 n ps' = register_type reg n ps)
    ∧ (∀ reg : TypeRegistry,
        EggCurve.init_type (EggCurve.init_type reg) = EggCurve.init_type reg)
    ∧ (∀ reg : TypeRegistry,
        EggCurve.get_class_type (EggCurve.init_type (EggCurve.init_type reg)) =
          EggCurve.get_class_type (EggCurve.init_type reg)) := by
  have hinit : ∀ reg : TypeRegistry,
      EggCurve.init_type (EggCurve.init_type reg) = EggCurve.init_type reg := by
    intro reg
    obtain ⟨eP, heP, -, -⟩ := findEntryByName_register reg "EggPrimitive" []
    obtain ⟨eC, heC, -, -⟩ := findEntryByName_register (EggPrimitive.init_type reg)
      "EggCurve" (EggPrimitive.get_class_type (EggPrimitive.init_type reg)).toList
    have hP2 : findEntryByName (EggCurve.init_type reg) "EggPrimitive" = some eP :=
      findEntryByName_mono _ _ _ _ _ heP
    have h1 : EggPrimitive.init_type (EggCurve.init_type reg) = EggCurve.init_type reg := by
      unfold EggPrimitive.init_type
      rw [register_type_found _ _ _ _ hP2]
    have heC' : findEntryByName (EggCurve.init_type reg) "EggCurve" = some eC := heC
    show (register_type (EggPrimitive.init_type (EggCurve.init_type reg)) "EggCurve"
      (EggPrimitive.get_class_type (EggPrimitive.init_type (EggCurve.init_type reg))).toList).1 =
      EggCurve.init_type reg
    rw [h1, register_type_found _ _ _ _ heC']
  refine ⟨?_, hinit, fun reg => by rw [hinit reg]⟩
  intro reg n ps ps'
  obtain ⟨e, he, hid, -⟩ := findEntryByName_register reg n ps
  rw [register_type_found _ _ _ _ he, hid]

/-- C3: `string_curve_type` maps each of the four keywords to its
enumerator by exact case-sensitive match, and every other token to
`CT_none`; in particular `"xyz"` parses to `CT_xyz` while `"XYZ"` and
`"bogus"` fall back to `CT_none`. -/
theorem string_curve_type_spec :
    EggCurve.string_curve_type "none" = CurveType.CT_none ∧
    EggCurve.string_curve_type "xyz" = CurveType.CT_xyz ∧
    EggCurve.string_curve_type "hpr" = CurveType.CT_hpr ∧
    EggCurve.string_curve_type "t" = CurveType.CT_t ∧
    (∀ s : String, s ∉ curveTypeKeywords →
      EggCurve.string_curve_type s = CurveType.CT_none) ∧
    EggCurve.string_curve_type "XYZ" = CurveType.CT_none ∧
    EggCurve.string_curve_type "bogus" = CurveType.CT_none := by
  refine ⟨by decide, by decide, by decide, by decide, ?_, by decide, by decide⟩
  intro s hs
  simp only [curveTypeKeywords, List.mem_cons, List.not_mem_nil, or_false, not_or] at hs
  obtain ⟨h1, h2, h3, h4⟩ := hs
  simp [EggCurve.string_curve_type, h1, h2, h3, h4]

/-- Witness for C3: a concrete token outside the keyword set falls back
to `CT_none`. -/
theorem string_curve_type_spec_witness :
    "qq" ∉ curveTypeKeywords ∧ EggCurve.string_curve_type "qq" = CurveType.CT_none :=
  ⟨by decide, string_curve_type_spec.2.2.2.2.1 "qq" (by decide)⟩

/-- C4: parsing and rendering round-trip — each canonical keyword parses
and renders back to itself, each enumerator renders to its canonical
keyword, and the rendering of `CT_none` differs from every real
keyword. -/
theorem curve_type_roundtrip :
    (∀ k ∈ curveTypeKeywords, curveTypeOut (EggCurve.string_curve_type k) = k) ∧
    curveTypeOut CurveType.CT_xyz = "xyz" ∧
    curveTypeOut CurveType.CT_hpr = "hpr" ∧
    curveTypeOut CurveType.CT_t = "t" ∧
    curveTypeOut CurveType.CT_none ≠ "xyz" ∧
    curveTypeOut CurveType.CT_none ≠ "hpr" ∧
    curveTypeOut CurveType.CT_none ≠ "t" := by
  decide

/-- Witness for C4: the round-trip at the concrete keyword `"xyz"`. -/
theorem curve_type_roundtrip_witness :
    "xyz" ∈ curveTypeKeywords ∧ curveTypeOut (EggCurve.string_curve_type "xyz") = "xyz" :=
  ⟨by decide, curve_type_roundtrip.1 "xyz" (by decide)⟩

/-- C5: virtual dispatch of `get_type` returns the handle of the actual
concrete class of the referenced node — for every `EggCurve` value seen
through a base-typed reference it is exactly `EggCurve::get_class_type`,
and after registration it differs from the base class handle. -/
theorem get_type_returns_actual_class :
    (∀ (c : EggCurve) (reg : TypeRegistry),
      EggNodeRef.get_type (EggNodeRef.curve c) reg = EggCurve.get_class_type reg)
    ∧ (∀ (p : EggPrimitive) (reg : TypeRegistry),
      EggNodeRef.get_type (EggNodeRef.primitive p) reg = EggPrimitive.get_class_type reg)
    ∧ (∀ (c : EggCurve) (p : EggPrimitive),
      EggNodeRef.get_type (EggNodeRef.curve c) (EggCurve.init_type TypeRegistry.empty) ≠
        EggNodeRef.get_type (EggNodeRef.primitive p) (EggCurve.init_type TypeRegistry.empty)) :=
  ⟨fun _ _ => rfl, fun _ _ => rfl, fun _ _ => by
    show EggCurve.get_class_type (EggCurve.init_type TypeRegistry.empty) ≠
      EggPrimitive.get_class_type (EggCurve.init_type TypeRegistry.empty)
    decide⟩

/-- C8: `set_subdiv` / `get_subdiv` store and return the subdivision
count verbatim for every integer, including zero and negatives. -/
theorem subdiv_stored_verbatim :
    ∀ (c : EggCurve) (v : Int), (c.set_subdiv v).get_subdiv = v :=
  fun _ _ => rfl

/-- C9: each setter writes only its own field — `set_subdiv` leaves
`_type` unchanged and `set_curve_type` leaves `_subdiv` unchanged. -/
theorem setters_frame :
    ∀ (c : EggCurve) (v : Int) (t : CurveType),
      (c.set_subdiv v)._type = c._type ∧ (c.set_curve_type t)._subdiv = c._subdiv :=
  fun _ _ _ => ⟨rfl, rfl⟩

/-! ## Derivation-query lemmas -/

/-- On a well-formed registry, every entry sits at the position given by
its id. -/
lemma WF.entry_at_id {reg : TypeRegistry} (hwf : WF reg) {e : TypeEntry}
    (he : e ∈ reg.entries) :
    reg.entries[e.id]? = some e ∧ e.id < reg.entries.length := by
  obtain ⟨i, hi, hget⟩ := List.mem_iff_getElem.1 he
  have hid : e.id = i := by rw [← hget]; exact (hwf.2 i hi).1
  rw [hid]
  exact ⟨by rw [List.getElem?_eq_getElem hi, hget], hi⟩

/-- On a well-formed registry, ids of stored entries are bounded by the
number of entries. -/
lemma WF.id_lt_length {reg : TypeRegistry} (hwf : WF reg) {e : TypeEntry}
    (he : e ∈ reg.entries) : e.id < reg.entries.length :=
  (hwf.entry_at_id he).2

/-- On a well-formed registry, ids identify entries uniquely. -/
lemma WF.id_injective {reg : TypeRegistry} (hwf : WF reg) {e₁ e₂ : TypeEntry}
    (h₁ : e₁ ∈ reg.entries) (h₂ : e₂ ∈ reg.entries) (hid : e₁.id = e₂.id) :
    e₁ = e₂ := by
  obtain ⟨hg₁, -⟩ := hwf.entry_at_id h₁
  obtain ⟨hg₂, -⟩ := hwf.entry_at_id h₂
  rw [hid] at hg₁
  rw [hg₁] at hg₂
  exact Option.some.inj hg₂

/-- On a well-formed registry, id lookup of a stored entry returns that
entry. -/
lemma findEntryById_of_mem {reg : TypeRegistry} (hwf : WF reg) {e : TypeEntry}
    (he : e ∈ reg.entries) : findEntryById reg e.id = some e := by
  unfold findEntryById
  cases hf : reg.entries.find? (fun x => x.id == e.id) with
  | none =>
    exfalso
    exact absurd (by simp : (fun x => x.id == e.id) e = true)
      (List.find?_eq_none.1 hf e he)
  | some e' =>
    have hm := List.mem_of_find?_eq_some hf
    have hp : e'.id = e.id := by simpa using List.find?_some hf
    rw [hwf.id_injective hm he hp]

/-- On a well-formed registry, every recorded parent id is strictly
smaller than the child's id. -/
lemma WF.parent_lt {reg : TypeRegistry} (hwf : WF reg) {e : TypeEntry}
    (he : e ∈ reg.entries) {p : Nat} (hp : p ∈ e.parents) : p < e.id := by
  obtain ⟨hsome, hlt⟩ := hwf.entry_at_id he
  have hget : reg.entries[e.id] = e := by
    rw [List.getElem?_eq_getElem hlt] at hsome
    exact Option.some.inj hsome
  have h2 := (hwf.2 e.id hlt).2
  rw [hget] at h2
  exact h2 p hp

/-- The fuel-bounded traversal is reflexive at every fuel. -/
lemma isDerivedFromFuel_refl (reg : TypeRegistry) (fuel x : Nat) :
    isDerivedFromFuel reg fuel x x = true := by
  cases fuel <;> simp [isDerivedFromFuel]

/-- Soundness: whenever the bounded traversal answers true, the ancestor
is reachable along parent links. -/
lemma isDerivedFromFuel_sound (reg : TypeRegistry) :
    ∀ (fuel h anc : Nat), isDerivedFromFuel reg fuel h anc = true →
      Reaches reg h anc := by
  intro fuel
  induction fuel with
  | zero =>
    intro h anc hd
    simp only [isDerivedFromFuel, beq_iff_eq] at hd
    exact hd ▸ Reaches.refl h
  | succ f ih =>
    intro h anc hd
    simp only [isDerivedFromFuel, Bool.or_eq_true, beq_iff_eq] at hd
    rcases hd with hd | hd
    · exact hd ▸ Reaches.refl h
    · cases hf : findEntryById reg h with
      | none => rw [hf] at hd; exact absurd hd (by simp)
      | some e =>
        rw [hf] at hd
        obtain ⟨p, hp, hrec⟩ := List.any_eq_true.1 hd
        have hm := List.mem_of_find?_eq_some hf
        have hid : e.id = h := by simpa using List.find?_some hf
        exact Reaches.step e hm hid hp (ih p anc hrec)

/-- Completeness: on a well-formed registry, reachability is detected by
the traversal as soon as the fuel exceeds the starting id. -/
lemma isDerivedFromFuel_complete {reg : TypeRegistry} (hwf : WF reg) :
    ∀ {h anc : Nat}, Reaches reg h anc → ∀ fuel, h < fuel →
      isDerivedFromFuel reg fuel h anc = true := by
  intro h anc hr
  induction hr with
  | refl x =>
    intro fuel _
    exact isDerivedFromFuel_refl reg fuel x
  | step e he hid hp hr ih =>
    rename_i h p anc
    intro fuel hfuel
    obtain ⟨f, rfl⟩ : ∃ f, fuel = f + 1 := ⟨fuel - 1, by omega⟩
    simp only [isDerivedFromFuel, Bool.or_eq_true]
    right
    have hfind : findEntryById reg h = some e := hid ▸ findEntryById_of_mem hwf he
    rw [hfind]
    refine List.any_eq_true.2 ⟨p, hp, ih f ?_⟩
    have hplt : p < e.id := hwf.parent_lt he hp
    omega

/-- The spec scenario, first registration: `Primitive` as a root. -/
def scenarioReg1 : TypeRegistry × TypeHandle :=
  register_type TypeRegistry.empty "Primitive" []

/-- The spec scenario, second registration: `Curve` with parent
`Primitive`. -/
def scenarioReg2 : TypeRegistry × TypeHandle :=
  register_type scenarioReg1.1 "Curve" [scenarioReg1.2]

/-- The spec scenario, third registration: `NurbsCurve` with parent
`Curve`. -/
def scenarioReg3 : TypeRegistry × TypeHandle :=
  register_type scenarioReg2.1 "NurbsCurve" [scenarioReg2.2]

/-- On a well-formed registry, `is_derived_from` agrees with
reachability along parent links, at any fuel at least the registry
size. -/
lemma isDerivedFromFuel_iff_reaches {reg : TypeRegistry} (hwf : WF reg)
    (h a : Nat) (fuel : Nat) (hfuel : reg.entries.length ≤ fuel) :
    (isDerivedFromFuel reg fuel h a = true ↔ Reaches reg h a) := by
  constructor
  · exact isDerivedFromFuel_sound reg fuel h a
  · intro hr
    by_cases hlt : h < reg.entries.length
    · exact isDerivedFromFuel_complete hwf hr fuel (by omega)
    · have heq : h = a := by
        cases hr with
        | refl => rfl
        | step e he hid hp hr =>
          exact absurd (hid ▸ hwf.id_lt_length he) hlt
      rw [heq]
      exact isDerivedFromFuel_refl reg fuel a

/-- C2: `is_derived_from(h, ancestor)` is true exactly when `ancestor`
is reachable from `h` along parent links (so it is reflexive), and in
the Primitive/Curve/NurbsCurve scenario the derived-to-ancestor query
answers true while the ancestor-to-derived query answers false. -/
theorem is_derived_from_spec :
    (∀ (reg : TypeRegistry) (h a : TypeHandle), WF reg →
      (is_derived_from reg h a = true ↔ Reaches reg h.id a.id))
    ∧ (∀ (reg : TypeRegistry) (h : TypeHandle), is_derived_from reg h h = true)
    ∧ is_derived_from scenarioReg3.1 scenarioReg3.2 scenarioReg1.2 = true
    ∧ is_derived_from scenarioReg3.1 scenarioReg1.2 scenarioReg3.2 = false := by
  refine ⟨?_, ?_, by decide, by decide⟩
  · intro reg h a hwf
    exact isDerivedFromFuel_iff_reaches hwf h.id a.id reg.entries.length (le_refl _)
  · intro reg h
    exact isDerivedFromFuel_refl reg reg.entries.length h.id

/-- Witness for C2: the general equivalence applied to the concrete
scenario registry, whose well-formedness is decided by evaluation. -/
theorem is_derived_from_spec_witness :
    WF scenarioReg3.1 ∧
      (is_derived_from scenarioReg3.1 ⟨2⟩ ⟨0⟩ = true ↔ Reaches scenarioReg3.1 2 0) :=
  ⟨by decide, is_derived_from_spec.1 scenarioReg3.1 ⟨2⟩ ⟨0⟩ (by decide)⟩

/-- Each parent link strictly decreases the id on a well-formed
registry. -/
lemma ParentStep.lt {reg : TypeRegistry} (hwf : WF reg) {x y : Nat}
    (hs : ParentStep reg x y) : y < x := by
  cases hs with
  | mk e he hid hp => exact hid ▸ hwf.parent_lt he hp

/-- C6: on the registry invariant the parent graph is acyclic and the
parent-link traversal of `is_derived_from` is well-founded — its answer
is already stable at fuel equal to the registry size, so any larger
traversal bound computes the same result. -/
theorem is_derived_from_terminates :
    (∀ reg : TypeRegistry, WF reg →
      ∀ n : Nat, ¬ Relation.TransGen (ParentStep reg) n n)
    ∧ (∀ (reg : TypeRegistry) (h a : TypeHandle) (fuel : Nat), WF reg →
        reg.entries.length ≤ fuel →
        isDerivedFromFuel reg fuel h.id a.id = is_derived_from reg h a) := by
  constructor
  · intro reg hwf n hcyc
    have hlt : ∀ x y : Nat, Relation.TransGen (ParentStep reg) x y → y < x := by
      intro x y hxy
      induction hxy with
      | single hs => exact hs.lt hwf
      | tail _ hs ih => exact lt_trans (hs.lt hwf) ih
    exact lt_irrefl n (hlt n n hcyc)
  · intro reg h a fuel hwf hfuel
    rw [Bool.eq_iff_iff]
    rw [isDerivedFromFuel_iff_reaches hwf h.id a.id fuel hfuel]
    exact (isDerivedFromFuel_iff_reaches hwf h.id a.id reg.entries.length (le_refl _)).symm

/-- Witness for C6: acyclicity and fuel stability at the concrete
scenario registry. -/
theorem is_derived_from_terminates_witness :
    WF scenarioReg3.1 ∧ scenarioReg3.1.entries.length ≤ 7 ∧
      (¬ Relation.TransGen (ParentStep scenarioReg3.1) 2 2) ∧
      isDerivedFromFuel scenarioReg3.1 7 2 0 = is_derived_from scenarioReg3.1 ⟨2⟩ ⟨0⟩ :=
  ⟨by decide, by decide,
    is_derived_from_terminates.1 scenarioReg3.1 (by decide) 2,
    is_derived_from_terminates.2 scenarioReg3.1 ⟨2⟩ ⟨0⟩ 7 (by decide) (by decide)⟩

/-- C7: `get_name` and `get_parents` surface `UnknownType` exactly on
handles never registered, and on a well-formed registry they return the
stored name and parent set of a registered handle. -/
theorem lookups_fail_unknown_type :
    ∀ (reg : TypeRegistry) (h : TypeHandle),
      ((∀ e ∈ reg.entries, e.id ≠ h.id) →
        get_name reg h = Except.error RegistryError.UnknownType ∧
        get_parents reg h = Except.error RegistryError.UnknownType)
      ∧ (∀ e ∈ reg.entries, e.id = h.id → WF reg →
          get_name reg h = Except.ok e.name ∧
          get_parents reg h = Except.ok (e.parents.map TypeHandle.mk)) := by
  intro reg h
  constructor
  · intro habs
    have hnone : findEntryById reg h.id = none := by
      unfold findEntryById
      exact List.find?_eq_none.2 (fun e he => by simpa using habs e he)
    unfold get_name get_parents
    rw [hnone]
    exact ⟨rfl, rfl⟩
  · intro e he hid hwf
    have hsome : findEntryById reg h.id = some e := hid ▸ findEntryById_of_mem hwf he
    unfold get_name get_parents
    rw [hsome]
    exact ⟨rfl, rfl⟩

/-- Witness for C7: in the scenario registry, the unregistered handle 5
fails with `UnknownType` and the registered handle 1 returns the stored
data of `Curve`. -/
theorem lookups_fail_unknown_type_witness :
    ((∀ e ∈ scenarioReg3.1.entries, e.id ≠ (5 : Nat)) ∧
      get_name scenarioReg3.1 ⟨5⟩ = Except.error RegistryError.UnknownType ∧
      get_parents scenarioReg3.1 ⟨5⟩ = Except.error RegistryError.UnknownType)
    ∧ (get_name scenarioReg3.1 ⟨1⟩ = Except.ok "Curve" ∧
      get_parents scenarioReg3.1 ⟨1⟩ = Except.ok [⟨0⟩]) :=
  ⟨⟨by decide, (lookups_fail_unknown_type scenarioReg3.1 ⟨5⟩).1 (by decide)⟩,
    (lookups_fail_unknown_type scenarioReg3.1 ⟨1⟩).2 ⟨1, "Curve", [0]⟩ (by decide) rfl
      (by decide)⟩

/-- Lookup in a list extended by two elements, when the original list
has no match, the first added element does not match and the second
does. -/
lemma find?_pair_snd {α : Type} (p : α → Bool) (L : List α) (a b : α)
    (hL : L.find? p = none) (hpa : p a = false) (hpb : p b = true) :
    ((L ++ [a]) ++ [b]).find? p = some b := by
  rw [List.find?_append, List.find?_append, hL,
    List.find?_cons_of_neg _ (by simp [hpa]), List.find?_cons_of_pos _ hpb]
  rfl

/-- Lookup in a list extended by two elements, when the original list
has no match and the first added element matches. -/
lemma find?_pair_fst {α : Type} (p : α → Bool) (L : List α) (a b : α)
    (hL : L.find? p = none) (hpa : p a = true) :
    ((L ++ [a]) ++ [b]).find? p = some a := by
  rw [List.find?_append, List.find?_append, hL, List.find?_cons_of_pos _ hpa]
  rfl

/-- C10: `EggCurve::init_type` registers the parent class first — after
it runs, `"EggPrimitive"` was already registered at the moment
`"EggCurve"` was created, the handle recorded as `EggCurve`'s sole
parent is exactly `EggPrimitive`'s handle, and `force_init_type`,
`get_class_type` and the dispatched `get_type` all agree on the
resulting handle. -/
theorem init_type_registers_parent_first :
    ∀ reg : TypeRegistry, WF reg →
      findEntryByName reg "EggPrimitive" = none →
      findEntryByName reg "EggCurve" = none →
      ∃ hp hc : TypeHandle,
        EggPrimitive.get_class_type (EggPrimitive.init_type reg) = some hp ∧
        EggPrimitive.get_class_type (EggCurve.init_type reg) = some hp ∧
        EggCurve.get_class_type (EggCurve.init_type reg) = some hc ∧
        get_parents (EggCurve.init_type reg) hc = Except.ok [hp] ∧
        (EggCurve.force_init_type reg).2 = some hc ∧
        ∀ c : EggCurve,
          EggNodeRef.get_type (EggNodeRef.curve c) (EggCurve.init_type reg) = some hc := by
  intro reg hwf hP hC
  have hPf : reg.entries.find? (fun e => e.name == "EggPrimitive") = none := hP
  have hCf : reg.entries.find? (fun e => e.name == "EggCurve") = none := hC
  refine ⟨⟨reg.nextId⟩, ⟨reg.nextId + 1⟩, ?_⟩
  have h1 : EggPrimitive.init_type reg =
      ⟨reg.entries ++ [⟨reg.nextId, "EggPrimitive", []⟩], reg.nextId + 1⟩ := by
    unfold EggPrimitive.init_type register_type
    rw [hP]
    rfl
  have h2 : findEntryByName (EggPrimitive.init_type reg) "EggPrimitive" =
      some ⟨reg.nextId, "EggPrimitive", []⟩ := by
    rw [h1]
    unfold findEntryByName
    rw [List.find?_append, hPf, List.find?_cons_of_pos _ (by simp)]
    rfl
  have h3 : EggPrimitive.get_class_type (EggPrimitive.init_type reg) = some ⟨reg.nextId⟩ := by
    unfold EggPrimitive.get_class_type
    rw [h2]
    rfl
  have hC1 : findEntryByName (EggPrimitive.init_type reg) "EggCurve" = none := by
    rw [h1]
    unfold findEntryByName
    rw [List.find?_append, hCf, List.find?_cons_of_neg _ (by simp)]
    rfl
  have h4 : EggCurve.init_type reg =
      ⟨(reg.entries ++ [⟨reg.nextId, "EggPrimitive", []⟩]) ++
          [⟨reg.nextId + 1, "EggCurve", [reg.nextId]⟩], reg.nextId + 2⟩ := by
    show (register_type (EggPrimitive.init_type reg) "EggCurve"
      (EggPrimitive.get_class_type (EggPrimitive.init_type reg)).toList).1 = _
    rw [h3]
    unfold register_type
    rw [hC1, h1]
    rfl
  have hP2 : EggPrimitive.get_class_type (EggCurve.init_type reg) = some ⟨reg.nextId⟩ := by
    unfold EggPrimitive.get_class_type findEntryByName
    rw [h4]
    rw [show (⟨(reg.entries ++ [⟨reg.nextId, "EggPrimitive", []⟩]) ++
          [⟨reg.nextId + 1, "EggCurve", [reg.nextId]⟩], reg.nextId + 2⟩ : TypeRegistry).entries =
        (reg.entries ++ [⟨reg.nextId, "EggPrimitive", []⟩]) ++
          [⟨reg.nextId + 1, "EggCurve", [reg.nextId]⟩] from rfl]
    rw [find?_pair_fst _ _ _ _ hPf (by simp)]
    rfl
  have hC2 : EggCurve.get_class_type (EggCurve.init_type reg) = some ⟨reg.nextId + 1⟩ := by
    unfold EggCurve.get_class_type findEntryByName
    rw [h4]
    rw [show (⟨(reg.entries ++ [⟨reg.nextId, "EggPrimitive", []⟩]) ++
          [⟨reg.nextId + 1, "EggCurve", [reg.nextId]⟩], reg.nextId + 2⟩ : TypeRegistry).entries =
        (reg.entries ++ [⟨reg.nextId, "EggPrimitive", []⟩]) ++
          [⟨reg.nextId + 1, "EggCurve", [reg.nextId]⟩] from rfl]
    rw [find?_pair_snd _ _ _ _ hCf (by simp) (by simp)]
    rfl
  have hLid : reg.entries.find? (fun e => e.id == reg.nextId + 1) = none := by
    apply List.find?_eq_none.2
    intro x hx
    have hxl := hwf.id_lt_length hx
    have hlen := hwf.1
    simp only [beq_iff_eq]
    omega
  have hfid : findEntryById (EggCurve.init_type reg) (reg.nextId + 1) =
      some ⟨reg.nextId + 1, "EggCurve", [reg.nextId]⟩ := by
    unfold findEntryById
    rw [h4]
    rw [show (⟨(reg.entries ++ [⟨reg.nextId, "EggPrimitive", []⟩]) ++
          [⟨reg.nextId + 1, "EggCurve", [reg.nextId]⟩], reg.nextId + 2⟩ : TypeRegistry).entries =
        (reg.entries ++ [⟨reg.nextId, "EggPrimitive", []⟩]) ++
          [⟨reg.nextId + 1, "EggCurve", [reg.nextId]⟩] from rfl]
    rw [find?_pair_snd _ _ _ _ hLid (by simp) (by simp)]
  have hpar : get_parents (EggCurve.init_type reg) ⟨reg.nextId + 1⟩ = Except.ok [⟨reg.nextId⟩] := by
    unfold get_parents
    rw [hfid]
    rfl
  exact ⟨h3, hP2, hC2, hpar, hC2, fun c => hC2⟩

/-- Witness for C10: the registration order at the empty registry. -/
theorem init_type_registers_parent_first_witness :
    WF TypeRegistry.empty ∧
      findEntryByName TypeRegistry.empty "EggPrimitive" = none ∧
      findEntryByName TypeRegistry.empty "EggCurve" = none ∧
      ∃ hp hc : TypeHandle,
        EggPrimitive.get_class_type (EggPrimitive.init_type TypeRegistry.empty) = some hp ∧
        EggPrimitive.get_class_type (EggCurve.init_type TypeRegistry.empty) = some hp ∧
        EggCurve.get_class_type (EggCurve.init_type TypeRegistry.empty) = some hc ∧
        get_parents (EggCurve.init_type TypeRegistry.empty) hc = Except.ok [hp] ∧
        (EggCurve.force_init_type TypeRegistry.empty).2 = some hc ∧
        ∀ c : EggCurve,
          EggNodeRef.get_type (EggNodeRef.curve c) (EggCurve.init_type TypeRegistry.empty) =
            some hc :=
  ⟨by decide, rfl, rfl,
    init_type_registers_parent_first TypeRegistry.empty (by decide) rfl rfl⟩
